import Mathlib

/-!
Shallow embedding of the vayu HTTP routing / middleware-chaining library
(package `vayu`): the output sink (`ResponseWriter`), the path matcher
(`splitPath`, `Router.matchRoute`), the request context (`Context`), the
middleware chain executor (`exec` in `App.ServeHTTP`), and application
dispatch (`App.ServeHTTP`).  Middleware and handler bodies are modelled as
programs in a small action language (`Prog`) whose observable behaviour —
emitted markers, unit entries, stop-flag writes, output-sink writes,
continuation invocations — is recorded in an event trace.
-/

namespace Vayu

/-- Modelled from the spec: the repository's status-code constants file is not
under `src/`; the spec fixes the not-found status as the conventional 404 code
(`StatusNotFound (404)` per the repository documentation). -/
def StatusNotFound : Nat := 404

/-- Modelled from the spec: the repository's status-code constants file is not
under `src/`; the spec's fixed "upstream timeout" (gateway timeout) status is
the conventional 504 code. -/
def StatusGatewayTimeout : Nat := 504

/-- Embeds `ResponseWriter` (response_writer.go): wraps the underlying writer,
tracking the `written` flag and last-set `status`; `body` records the bytes
forwarded to the underlying connection. -/
structure ResponseWriter where
  written : Bool
  status : Nat
  body : List String
deriving DecidableEq, Repr

/-- Embeds `NewResponseWriter` (response_writer.go): fresh sink with
`written = false` and `status = 0`. -/
def NewResponseWriter : ResponseWriter :=
  { written := false, status := 0, body := [] }

/-- Embeds `ResponseWriter.WriteHeader` (response_writer.go): stores the code
in `status` and marks the response as written. -/
def ResponseWriter.WriteHeader (w : ResponseWriter) (code : Nat) : ResponseWriter :=
  { w with status := code, written := true }

/-- Embeds `ResponseWriter.Write` (response_writer.go): marks the response as
written and forwards the bytes; `status` is untouched. -/
def ResponseWriter.Write (w : ResponseWriter) (b : String) : ResponseWriter :=
  { w with written := true, body := w.body ++ [b] }

/-- Embeds `ResponseWriter.Written` (response_writer.go). -/
def ResponseWriter.Written (w : ResponseWriter) : Bool := w.written

/-- Embeds `ResponseWriter.Status` (response_writer.go). -/
def ResponseWriter.Status (w : ResponseWriter) : Nat := w.status

/-- Embeds `strings.Trim(p, "/")` as used by `splitPath`: drop the separator
from the right end, then from the left end, of the character list. -/
def trimChar (s : List Char) : List Char :=
  ((s.reverse.dropWhile (· == '/')).reverse).dropWhile (· == '/')

/-- Embeds `strings.Split(s, "/")` on a character list (accumulator holds the
current segment reversed); on empty input it yields one empty segment, exactly
as Go's `Split` does. -/
def splitChars : List Char → List Char → List String
  | [], acc => [String.mk acc.reverse]
  | c :: cs, acc =>
    if c == '/' then String.mk acc.reverse :: splitChars cs []
    else splitChars cs (c :: acc)

/-- Embeds `splitPath` (app.go): trim leading/trailing slashes; an empty
result gives zero segments, otherwise split on the separator. -/
def splitPath (p : String) : List String :=
  let t := trimChar p.data
  if t = [] then [] else splitChars t []

/-- Embeds `strings.HasPrefix(seg, ":")` as used by `Router.matchRoute`. -/
def hasColonMarker (s : String) : Bool :=
  match s.data with
  | [] => false
  | c :: _ => c == ':'

/-- Embeds the Go slice `seg[1:]` on a segment whose first byte is the one-byte
marker `:`. -/
def paramKey (s : String) : String := String.mk s.data.tail

/-- Embeds Go map assignment `params[k] = v` on the parameter mapping, modelled
as an association list: a later assignment to an existing key overwrites it. -/
def paramsInsert : List (String × String) → String → String → List (String × String)
  | [], k, v => [(k, v)]
  | (k', v') :: rest, k, v =>
    if k' = k then (k, v) :: rest else (k', v') :: paramsInsert rest k v

/-- Embeds Go map lookup `params[k]` on the parameter mapping. -/
def paramsGet : List (String × String) → String → Option String
  | [], _ => none
  | (k', v') :: rest, k => if k' = k then some v' else paramsGet rest k

/-- Observable events of one request: entry into chain unit `i` (the terminal
handler sits at index `length middleware`), a marker emitted by unit code,
entry into the configured not-found handler, and the transport-level
`http.NotFound` fallback. -/
inductive Event where
  | enter (i : Nat)
  | mark (e : Nat)
  | enterNotFound
  | transportNotFound
deriving DecidableEq, Repr

/-- Middleware / handler bodies (`HandlerFunc` values) as programs in a small
action language: emit a marker, set the stopped flag (`Context.Stop`), write a
status code or body bytes to the sink, or invoke the continuation (`next`) and
then continue with the rest of the body. -/
inductive Prog where
  | done
  | mark (e : Nat) (rest : Prog)
  | stop (rest : Prog)
  | writeHeader (code : Nat) (rest : Prog)
  | write (b : String) (rest : Prog)
  | next (rest : Prog)
deriving DecidableEq, Repr

/-- Embeds `route` (router.go): a registered pattern together with its
handler. -/
structure route where
  pattern : String
  handler : Prog
deriving DecidableEq, Repr

/-- Embeds `Router` (router.go): the method-indexed route table (Go map from
method string to slice of routes, modelled as an association list). -/
structure Router where
  routes : List (String × List route)
deriving DecidableEq, Repr

/-- Embeds the Go map read `r.routes[method]`: the routes registered under the
method, or the empty slice when the method has no entry. -/
def methodRoutes : List (String × List route) → String → List route
  | [], _ => []
  | (m, rs) :: rest, method => if m = method then rs else methodRoutes rest method

/-- Embeds the inner segment loop of `Router.matchRoute` (router.go): walk
pattern and path segments pairwise, binding a `:`-marked pattern segment's
remaining text to the request segment, requiring byte-equality otherwise. -/
def matchSegs : List String → List String → List (String × String) →
    Option (List (String × String))
  | [], [], params => some params
  | pat :: pats, seg :: segs, params =>
    if hasColonMarker pat then
      matchSegs pats segs (paramsInsert params (paramKey pat) seg)
    else if pat = seg then
      matchSegs pats segs params
    else none
  | _, _, _ => none

/-- Embeds the route loop of `Router.matchRoute` (router.go): try registered
routes in order; a segment-count mismatch or a failed segment walk moves on to
the next route; the first full match returns its handler and parameters. -/
def matchList : List route → String → Option (Prog × List (String × String))
  | [], _ => none
  | rt :: rest, path =>
    if (splitPath rt.pattern).length = (splitPath path).length then
      match matchSegs (splitPath rt.pattern) (splitPath path) [] with
      | some params => some (rt.handler, params)
      | none => matchList rest path
    else matchList rest path

/-- Embeds `Router.matchRoute` (router.go): look up the routes for the exact
method string and scan them in registration order. -/
def Router.matchRoute (r : Router) (method path : String) :
    Option (Prog × List (String × String)) :=
  matchList (methodRoutes r.routes method) path

/-- Embeds the request `Context` (context.go) fields the dispatch core touches:
the output sink, the parameter mapping, the `Stopped` flag, plus the
instrumentation trace of observable events. -/
structure Context where
  Writer : ResponseWriter
  Params : List (String × String)
  Stopped : Bool
  trace : List Event
deriving DecidableEq, Repr

/-- Embeds `Context.Stop` (context.go): sets the `Stopped` flag. -/
def Context.Stop (c : Context) : Context := { c with Stopped := true }

/-- Appends one observable event to the context's instrumentation trace. -/
def pushEvent (c : Context) (e : Event) : Context := { c with trace := c.trace ++ [e] }

/-- Runs one unit body with continuation `k` (the Go closure
`func() { exec(i + 1) }`, or the no-op continuation for the not-found
handler). -/
def runUnit (k : Context → Context) : Prog → Context → Context
  | .done, c => c
  | .mark e q, c => runUnit k q (pushEvent c (.mark e))
  | .stop q, c => runUnit k q c.Stop
  | .writeHeader code q, c => runUnit k q { c with Writer := c.Writer.WriteHeader code }
  | .write b q, c => runUnit k q { c with Writer := c.Writer.Write b }
  | .next q, c => runUnit k q (k c)

/-- Embeds the recursive closure `exec` inside `App.ServeHTTP` (app.go), with
the remaining chain passed as the list suffix `mws[i:]`: first check the
cancellation signal (write the gateway-timeout status and return if fired),
then the bounds and the `Stopped` flag, then invoke unit `i` with the
continuation `exec (i+1)`. -/
def exec (cancelled : Bool) : Nat → List Prog → Context → Context
  | _, [], c =>
    if cancelled then { c with Writer := c.Writer.WriteHeader StatusGatewayTimeout }
    else c
  | i, p :: rest, c =>
    if cancelled then { c with Writer := c.Writer.WriteHeader StatusGatewayTimeout }
    else if c.Stopped then c
    else runUnit (exec cancelled (i + 1) rest) p (pushEvent c (.enter i))

/-- Runs a handler invoked with the no-op continuation `func() {}`, as
`App.ServeHTTP` does for the not-found handler. -/
def runPlain : Prog → Context → Context
  | .done, c => c
  | .mark e q, c => runPlain q (pushEvent c (.mark e))
  | .stop q, c => runPlain q c.Stop
  | .writeHeader code q, c => runPlain q { c with Writer := c.Writer.WriteHeader code }
  | .write b q, c => runPlain q { c with Writer := c.Writer.Write b }
  | .next q, c => runPlain q c

/-- Embeds `App` (app.go): route table, global middleware stack, and the
(reassignable, possibly nil) `NotFoundHandler`. -/
structure App where
  router : Router
  middleware : List Prog
  NotFoundHandler : Option Prog
deriving DecidableEq, Repr

/-- Embeds the default 404 handler installed by `New` (app.go): write the
not-found status, then the body `"404 Not Found"`. -/
def defaultNotFound : Prog :=
  .writeHeader StatusNotFound (.write "404 Not Found" .done)

/-- Embeds `New` (app.go): empty route table, no middleware, and the default
404 handler installed as `NotFoundHandler`. -/
def New : App :=
  { router := ⟨[]⟩, middleware := [], NotFoundHandler := some defaultNotFound }

/-- Embeds `App.Use` (app.go): appends a middleware unit to the global
stack. -/
def App.Use (a : App) (mw : Prog) : App :=
  { a with middleware := a.middleware ++ [mw] }

/-- Embeds the Go map update `routes[method] = append(routes[method], rt)`
(with nil-slice initialisation) of `App.addRoute`. -/
def routesAppend : List (String × List route) → String → route →
    List (String × List route)
  | [], method, rt => [(method, [rt])]
  | (m, rs) :: rest, method, rt =>
    if m = method then (m, rs ++ [rt]) :: rest
    else (m, rs) :: routesAppend rest method rt

/-- Embeds `App.addRoute` (app.go): registers a route under a method. -/
def App.addRoute (a : App) (method path : String) (handler : Prog) : App :=
  { a with router := ⟨routesAppend a.router.routes method ⟨path, handler⟩⟩ }

/-- Embeds `App.GET` (app.go). -/
def App.GET (a : App) (path : String) (handler : Prog) : App :=
  a.addRoute "GET" path handler

/-- The fresh per-request context built at the top of `App.ServeHTTP`. -/
def freshContext : Context :=
  { Writer := NewResponseWriter, Params := [], Stopped := false, trace := [] }

/-- Embeds `App.ServeHTTP` (app.go): match the route; on no match invoke the
configured not-found handler with a no-op continuation (or the transport-level
fallback when it is nil); on a match store the parameters and run the chain
`middleware ++ [handler]` from index 0.  The cancellation signal is modelled
as the boolean `cancelled` (fixed for the request; the Go code checks
`ctx.Ctx.Done()` at each chain step). -/
def App.ServeHTTP (a : App) (cancelled : Bool) (method path : String) : Context :=
  match a.router.matchRoute method path with
  | none =>
    match a.NotFoundHandler with
    | some nf => runPlain nf (pushEvent freshContext .enterNotFound)
    | none => pushEvent freshContext .transportNotFound
  | some (handler, params) =>
    exec cancelled 0 (a.middleware ++ [handler]) { freshContext with Params := params }

/-- Counts the entries into chain unit `k` recorded in a trace (the terminal
handler of a chain `middleware ++ [handler]` is unit `middleware.length`). -/
def countEnter (k : Nat) : List Event → Nat
  | [] => 0
  | e :: tr => (if e = Event.enter k then 1 else 0) + countEnter k tr

/-- Number of continuation invocations a unit body performs. -/
def nextCount : Prog → Nat
  | .done => 0
  | .mark _ q => nextCount q
  | .stop q => nextCount q
  | .writeHeader _ q => nextCount q
  | .write _ q => nextCount q
  | .next q => nextCount q + 1

/-- Whether a unit body never sets the stopped flag. -/
def stopFree : Prog → Bool
  | .done => true
  | .mark _ q => stopFree q
  | .stop _ => false
  | .writeHeader _ q => stopFree q
  | .write _ q => stopFree q
  | .next q => stopFree q

/-- The parameter mapping produced by walking pattern/path segment pairs:
each `:`-marked pattern segment binds its remaining text to the request
segment value, later bindings overwriting earlier ones. -/
def bindParams : List (String × String) → List (String × String) →
    List (String × String)
  | params, [] => params
  | params, (pat, seg) :: rest =>
    bindParams (if hasColonMarker pat then paramsInsert params (paramKey pat) seg
                else params) rest

/-- The verdict of `Router.matchRoute`'s loop body on a single route: the
parameter mapping when the route fully matches the path, `none` otherwise. -/
def routeMatch (rt : route) (path : String) : Option (List (String × String)) :=
  if (splitPath rt.pattern).length = (splitPath path).length then
    matchSegs (splitPath rt.pattern) (splitPath path) []
  else none

/-- A call against the output sink: set a status code or write body bytes. -/
inductive WOp where
  | header (code : Nat)
  | bytes (b : String)
deriving DecidableEq, Repr

/-- Applies one sink call. -/
def applyWOp (w : ResponseWriter) : WOp → ResponseWriter
  | .header code => w.WriteHeader code
  | .bytes b => w.Write b

/-- Applies a sequence of sink calls in order. -/
def applyWOps (w : ResponseWriter) (ops : List WOp) : ResponseWriter :=
  ops.foldl applyWOp w

/-- A setup-time registration call on the application: `Use` or `addRoute`
(the registration surface that leaves `NotFoundHandler` untouched). -/
inductive BuildOp where
  | use (mw : Prog)
  | addRoute (method path : String) (handler : Prog)
deriving DecidableEq, Repr

/-- Applies one registration call. -/
def applyBuildOp (a : App) : BuildOp → App
  | .use mw => a.Use mw
  | .addRoute m p h => a.addRoute m p h

/-- An application built by `New` followed by any sequence of registration
calls. -/
def buildApp (ops : List BuildOp) : App :=
  ops.foldl applyBuildOp New

/-- Concrete route table: the single pattern `/users/:id` under `GET`. -/
def usersRouter : Router :=
  ⟨[("GET", [⟨"/users/:id", .mark 1 .done⟩])]⟩

/-- Concrete route table: `/a/:x` registered before `/a/b` under `GET`. -/
def precedenceRouter : Router :=
  ⟨[("GET", [⟨"/a/:x", .mark 1 .done⟩, ⟨"/a/b", .mark 2 .done⟩])]⟩

/-! Helper lemmas. -/

theorem exec_cancelled (i : Nat) (chain : List Prog) (c : Context) :
    exec true i chain c = { c with Writer := c.Writer.WriteHeader StatusGatewayTimeout } := by
  cases chain <;> simp [exec]

theorem runUnit_stop_mono (k : Context → Context)
    (hk : ∀ c, c.Stopped = true → (k c).Stopped = true) :
    ∀ (p : Prog) (c : Context), c.Stopped = true → (runUnit k p c).Stopped = true := by
  intro p
  induction p with
  | done => intro c h; exact h
  | mark e q ih => intro c h; exact ih _ h
  | stop q ih => intro c h; exact ih _ rfl
  | writeHeader code q ih => intro c h; exact ih _ h
  | write b q ih => intro c h; exact ih _ h
  | next q ih => intro c h; exact ih _ (hk c h)

theorem buildApp_notFoundHandler (ops : List BuildOp) :
    (buildApp ops).NotFoundHandler = some defaultNotFound := by
  suffices h : ∀ a : App, a.NotFoundHandler = some defaultNotFound →
      (ops.foldl applyBuildOp a).NotFoundHandler = some defaultNotFound from h New rfl
  induction ops with
  | nil => intro a h; exact h
  | cons op rest ih => intro a h; cases op <;> exact ih _ h

theorem applyWOps_written (ops : List WOp) :
    ∀ w : ResponseWriter, w.written = true → (applyWOps w ops).written = true := by
  induction ops with
  | nil => intro w h; exact h
  | cons op rest ih => intro w h; cases op <;> exact ih _ rfl

theorem matchSegs_isSome (pats : List String) : ∀ (segs : List String)
    (params : List (String × String)), pats.length = segs.length →
    ((matchSegs pats segs params).isSome = true ↔
      ∀ pr ∈ pats.zip segs, hasColonMarker pr.1 = true ∨ pr.1 = pr.2) := by
  induction pats with
  | nil =>
    intro segs params h
    cases segs with
    | nil => simp [matchSegs]
    | cons s ss => simp at h
  | cons pat pats ih =>
    intro segs params h
    cases segs with
    | nil => simp at h
    | cons seg segs =>
      have hlen : pats.length = segs.length := by simpa using h
      by_cases hc : hasColonMarker pat = true
      · simp [matchSegs, hc, ih segs _ hlen]
      · by_cases he : pat = seg
        · subst he
          simp [matchSegs, hc, ih segs _ hlen]
        · simp [matchSegs, hc, he]

theorem matchSegs_binds (pats : List String) : ∀ (segs : List String)
    (params ps : List (String × String)),
    matchSegs pats segs params = some ps → ps = bindParams params (pats.zip segs) := by
  induction pats with
  | nil =>
    intro segs params ps h
    cases segs with
    | nil => simp [matchSegs] at h; simp [bindParams, h]
    | cons s ss => simp [matchSegs] at h
  | cons pat pats ih =>
    intro segs params ps h
    cases segs with
    | nil => simp [matchSegs] at h
    | cons seg segs =>
      by_cases hc : hasColonMarker pat = true
      · rw [show matchSegs (pat :: pats) (seg :: segs) params
            = matchSegs pats segs (paramsInsert params (paramKey pat) seg) by
              simp [matchSegs, hc]] at h
        simpa [bindParams, hc] using ih segs _ ps h
      · by_cases he : pat = seg
        · subst he
          rw [show matchSegs (pat :: pats) (pat :: segs) params
              = matchSegs pats segs params by simp [matchSegs, hc]] at h
          simpa [bindParams, hc] using ih segs _ ps h
        · simp [matchSegs, hc, he] at h

theorem data_append_slash (p : String) : (p ++ "/").data = p.data ++ ['/'] := by
  cases p
  rfl

theorem trimChar_append_slash (l : List Char) : trimChar (l ++ ['/']) = trimChar l := by
  simp [trimChar, List.dropWhile_cons]

theorem splitPath_append_slash (p : String) : splitPath (p ++ "/") = splitPath p := by
  simp [splitPath, data_append_slash, trimChar_append_slash]

theorem matchList_splitPath_congr (p1 p2 : String) (h : splitPath p1 = splitPath p2) :
    ∀ rts : List route, matchList rts p1 = matchList rts p2 := by
  intro rts
  induction rts with
  | nil => rfl
  | cons rt rest ih => simp [matchList, h, ih]

theorem matchList_eq_routeMatch (rt : route) (rest : List route) (path : String) :
    matchList (rt :: rest) path =
      match routeMatch rt path with
      | some ps => some (rt.handler, ps)
      | none => matchList rest path := by
  simp only [matchList, routeMatch]
  split <;> rfl

theorem matchList_first (rts1 : List route) (rt : route) (rts2 : List route) (path : String)
    (ps : List (String × String))
    (h1 : ∀ r ∈ rts1, routeMatch r path = none)
    (h2 : routeMatch rt path = some ps) :
    matchList (rts1 ++ rt :: rts2) path = some (rt.handler, ps) := by
  induction rts1 with
  | nil => rw [List.nil_append, matchList_eq_routeMatch, h2]
  | cons r rest ih =>
    rw [List.cons_append, matchList_eq_routeMatch, h1 r (by simp)]
    exact ih (fun r' hr' => h1 r' (by simp [hr']))

theorem countEnter_append (k : Nat) (t1 t2 : List Event) :
    countEnter k (t1 ++ t2) = countEnter k t1 + countEnter k t2 := by
  induction t1 with
  | nil => simp [countEnter]
  | cons e t ih => simp [countEnter, ih]; omega

theorem runUnit_id_trace (k : Context → Context) (hk : ∀ c, k c = c) :
    ∀ (p : Prog) (c : Context) (m : Nat),
      countEnter m (runUnit k p c).trace = countEnter m c.trace := by
  intro p
  induction p with
  | done => intro c m; rfl
  | mark e q ih =>
    intro c m
    rw [runUnit, ih]
    simp [pushEvent, countEnter_append, countEnter]
  | stop q ih => intro c m; rw [runUnit, ih]; rfl
  | writeHeader code q ih => intro c m; rw [runUnit, ih]
  | write b q ih => intro c m; rw [runUnit, ih]
  | next q ih => intro c m; rw [runUnit, hk, ih]

theorem runUnit_no_next (p : Prog) (hp : nextCount p = 0) :
    ∀ (k : Context → Context) (c : Context) (m : Nat),
      countEnter m (runUnit k p c).trace = countEnter m c.trace := by
  induction p with
  | done => intro k c m; rfl
  | mark e q ih =>
    intro k c m
    rw [runUnit, ih hp]
    simp [pushEvent, countEnter_append, countEnter]
  | stop q ih => intro k c m; rw [runUnit, ih hp]; rfl
  | writeHeader code q ih => intro k c m; rw [runUnit, ih hp]
  | write b q ih => intro k c m; rw [runUnit, ih hp]
  | next q ih => simp [nextCount] at hp

theorem runUnit_one_next (K d : Nat) (k : Context → Context)
    (hk : ∀ c, c.Stopped = false → countEnter K (k c).trace = countEnter K c.trace + d) :
    ∀ (p : Prog), stopFree p = true → nextCount p = 1 →
      ∀ (c : Context), c.Stopped = false →
        countEnter K (runUnit k p c).trace = countEnter K c.trace + d := by
  intro p
  induction p with
  | done => intro _ h1; simp [nextCount] at h1
  | mark e q ih =>
    intro hsf hnc c hc
    rw [runUnit, ih hsf hnc (pushEvent c (Event.mark e)) hc]
    simp [pushEvent, countEnter_append, countEnter]
  | stop q ih => intro hsf; simp [stopFree] at hsf
  | writeHeader code q ih =>
    intro hsf hnc c hc
    exact ih hsf hnc { c with Writer := c.Writer.WriteHeader code } hc
  | write b q ih =>
    intro hsf hnc c hc
    exact ih hsf hnc { c with Writer := c.Writer.Write b } hc
  | next q ih =>
    intro hsf hnc c hc
    have hq0 : nextCount q = 0 := by simpa [nextCount] using hnc
    rw [runUnit, runUnit_no_next q hq0, hk c hc]

theorem exec_tame_chain (h0 : Prog) : ∀ (ms : List Prog) (i : Nat) (c : Context),
    (∀ p ∈ ms, stopFree p = true ∧ nextCount p = 1) → c.Stopped = false →
    countEnter (i + ms.length) (exec false i (ms ++ [h0]) c).trace
      = countEnter (i + ms.length) c.trace + 1 := by
  intro ms
  induction ms with
  | nil =>
    intro i c _ hc
    have hid : ∀ c' : Context, exec false (i + 1) [] c' = c' := by
      intro c'; simp [exec]
    show countEnter (i + 0) (exec false i ([] ++ [h0]) c).trace = _
    rw [List.nil_append]
    rw [show exec false i [h0] c
        = runUnit (exec false (i + 1) []) h0 (pushEvent c (.enter i)) by simp [exec, hc]]
    rw [runUnit_id_trace _ hid]
    simp [pushEvent, countEnter_append, countEnter]
  | cons m ms ih =>
    intro i c hsf hc
    have hm := hsf m (by simp)
    have hms : ∀ p ∈ ms, stopFree p = true ∧ nextCount p = 1 :=
      fun p hp => hsf p (by simp [hp])
    rw [show ((m :: ms) ++ [h0]) = m :: (ms ++ [h0]) by rfl]
    rw [show exec false i (m :: (ms ++ [h0])) c
        = runUnit (exec false (i + 1) (ms ++ [h0])) m (pushEvent c (.enter i)) by
          simp [exec, hc]]
    have hK : i + (m :: ms).length = (i + 1) + ms.length := by simp; omega
    rw [hK]
    have hk : ∀ c' : Context, c'.Stopped = false →
        countEnter ((i + 1) + ms.length) (exec false (i + 1) (ms ++ [h0]) c').trace
          = countEnter ((i + 1) + ms.length) c'.trace + 1 :=
      fun c' hc' => ih (i + 1) c' hms hc'
    rw [runUnit_one_next _ 1 _ hk m hm.1 hm.2 (pushEvent c (.enter i)) hc]
    simp [pushEvent, countEnter_append, countEnter]
    omega

/-! Claim theorems. -/

/-- C1: with the cancellation signal already triggered, every chain step
aborts immediately — the executor commits the gateway-timeout status to the
output sink and runs no unit body from that point on; in particular a matched
request whose signal is triggered at dispatch time commits the timeout status
with no middleware or handler body executing at all (empty trace, empty
body). -/
theorem c1_cancelled_timeout (a : App) (method path : String)
    (h : Prog) (params : List (String × String))
    (hmatch : a.router.matchRoute method path = some (h, params)) :
    (∀ (i : Nat) (chain : List Prog) (c : Context),
        exec true i chain c = { c with Writer := c.Writer.WriteHeader StatusGatewayTimeout }) ∧
    (a.ServeHTTP true method path).Writer.Status = StatusGatewayTimeout ∧
    (a.ServeHTTP true method path).Writer.Written = true ∧
    (a.ServeHTTP true method path).trace = [] ∧
    (a.ServeHTTP true method path).Writer.body = [] := by
  refine ⟨fun i chain c => exec_cancelled i chain c, ?_⟩
  simp [App.ServeHTTP, hmatch, exec_cancelled, ResponseWriter.Status, ResponseWriter.Written,
    ResponseWriter.WriteHeader, freshContext, NewResponseWriter]

theorem c1_cancelled_timeout_witness :
    ((New.GET "/u" Prog.done).ServeHTTP true "GET" "/u").Writer.Status
      = StatusGatewayTimeout := by
  exact (c1_cancelled_timeout (New.GET "/u" Prog.done) "GET" "/u" Prog.done [] (by decide)).2.1

/-- C2 counterexample: a second status-setting call on the output sink does
change the latched status value — after `WriteHeader 200` then
`WriteHeader 404` the stored status is 404, not the first-latched 200. -/
theorem c2_counterexample :
    ((NewResponseWriter.WriteHeader 200).WriteHeader 404).Status = 404 ∧
    ¬ ((NewResponseWriter.WriteHeader 200).WriteHeader 404).Status = 200 := by
  decide

/-- C2 amended: the first status-setting call latches the `written` flag and
the status value; a body-byte write latches `written` and never changes the
latched status; but a further status-setting call, while keeping `written`
latched, overwrites the stored status with its own code (the last
status-setting call determines the stored status). -/
theorem c2_amended (w : ResponseWriter) (code : Nat) (b : String) :
    NewResponseWriter.Written = false ∧
    (w.WriteHeader code).Written = true ∧
    (w.WriteHeader code).Status = code ∧
    (w.Write b).Written = true ∧
    (w.Write b).Status = w.Status ∧
    (w.Write b).body = w.body ++ [b] := by
  exact ⟨rfl, rfl, rfl, rfl, rfl, rfl⟩

/-- C8: once the stopped flag is set, the chain executor runs no further unit:
from any stopped context, `exec` returns the context unchanged (apart from
committing the timeout status when the cancellation signal has fired) and in
particular adds no unit entry to the trace; no action of a unit body ever
clears a set flag; and concretely a unit that stops and then invokes its
continuation prevents both the following middleware unit and the terminal
handler from running. -/
theorem c8_stopped_halts (cancelled : Bool) (i : Nat) (chain : List Prog) (c : Context)
    (hstop : c.Stopped = true) :
    (exec cancelled i chain c =
      if cancelled then { c with Writer := c.Writer.WriteHeader StatusGatewayTimeout }
      else c) ∧
    (∀ (k : Context → Context), (∀ c', c'.Stopped = true → (k c').Stopped = true) →
      ∀ (p : Prog) (c' : Context), c'.Stopped = true → (runUnit k p c').Stopped = true) ∧
    (exec false 0 [.mark 1 (.stop (.next .done)), .mark 2 .done, .mark 3 .done]
        freshContext).trace = [.enter 0, .mark 1] := by
  refine ⟨?_, fun k hk p c' h => runUnit_stop_mono k hk p c' h, by decide⟩
  cases chain <;> cases cancelled <;> simp [exec, hstop]

theorem c8_stopped_halts_witness :
    (exec false 0 [Prog.mark 9 Prog.done] { freshContext with Stopped := true }).trace
      = freshContext.trace := by
  have h := c8_stopped_halts false 0 [Prog.mark 9 Prog.done]
    { freshContext with Stopped := true } rfl
  rw [h.1]
  rfl

/-- C9: the output sink's `written` state starts false, becomes true on the
first status-setting or body-writing call, and no further sequence of
`WriteHeader` or `Write` calls ever makes it false again. -/
theorem c9_written_monotone (w : ResponseWriter) (op : WOp) (ops : List WOp) :
    NewResponseWriter.Written = false ∧
    (applyWOp w op).Written = true ∧
    (applyWOps (applyWOp w op) ops).Written = true := by
  refine ⟨rfl, ?_, ?_⟩
  · cases op <;> rfl
  · apply applyWOps_written
    cases op <;> rfl

/-- C10: every application built by `New` followed by any sequence of `Use` /
route registrations keeps the default not-found handler installed; hence an
unmatched request always takes the custom-handler branch — it commits status
404 with body `"404 Not Found"`, the transport-level fallback event never
occurs, and no global middleware unit is entered on the not-found path (the
trace is exactly the not-found handler entry). -/
theorem c10_default_notfound (ops : List BuildOp) (cancelled : Bool) (method path : String)
    (hnm : (buildApp ops).router.matchRoute method path = none) :
    (buildApp ops).NotFoundHandler = some defaultNotFound ∧
    ((buildApp ops).ServeHTTP cancelled method path).trace = [Event.enterNotFound] ∧
    ((buildApp ops).ServeHTTP cancelled method path).Writer.Status = StatusNotFound ∧
    ((buildApp ops).ServeHTTP cancelled method path).Writer.body = ["404 Not Found"] ∧
    ((buildApp ops).ServeHTTP cancelled method path).Writer.Written = true := by
  have hnf := buildApp_notFoundHandler ops
  refine ⟨hnf, ?_⟩
  simp [App.ServeHTTP, hnm, hnf, defaultNotFound, runPlain, pushEvent, freshContext,
    NewResponseWriter, ResponseWriter.WriteHeader, ResponseWriter.Write,
    ResponseWriter.Status, ResponseWriter.Written]

theorem c10_default_notfound_witness :
    ((buildApp []).ServeHTTP false "GET" "/nope").Writer.Status = StatusNotFound := by
  exact (c10_default_notfound [] false "GET" "/nope" (by decide)).2.2.1

/-- C3 counterexample: the terminal handler does not execute exactly once
regardless of middleware behaviour — for a matched request whose single
middleware unit never invokes its continuation, the terminal handler (chain
unit 1) executes zero times. -/
theorem c3_counterexample :
    (((New.Use Prog.done).GET "/a" (.mark 7 .done)).router.matchRoute
      "GET" "/a").isSome = true ∧
    ((New.Use Prog.done).GET "/a" (.mark 7 .done)).middleware.length = 1 ∧
    countEnter 1
      ((((New.Use Prog.done).GET "/a" (.mark 7 .done)).ServeHTTP false "GET" "/a").trace)
      = 0 := by
  decide

/-- C3 amended: for a matched request dispatched without cancellation, if
every global middleware unit invokes its continuation exactly once and never
sets the stopped flag, then the terminal handler executes exactly once;
without those conditions the handler may run zero times (continuation never
invoked, or stop flag set) or several times (continuation invoked
repeatedly). -/
theorem c3_terminal_once (a : App) (method path : String) (h0 : Prog)
    (params : List (String × String))
    (hmatch : a.router.matchRoute method path = some (h0, params))
    (htame : ∀ p ∈ a.middleware, stopFree p = true ∧ nextCount p = 1) :
    countEnter a.middleware.length ((a.ServeHTTP false method path).trace) = 1 := by
  unfold App.ServeHTTP
  rw [hmatch]
  have h := exec_tame_chain h0 a.middleware 0 { freshContext with Params := params }
    htame rfl
  simpa [freshContext, countEnter] using h

theorem c3_terminal_once_witness :
    countEnter 1
      ((((New.Use (.mark 5 (.next .done))).GET "/a" (.mark 7 .done)).ServeHTTP
        false "GET" "/a").trace) = 1 := by
  exact c3_terminal_once ((New.Use (.mark 5 (.next .done))).GET "/a" (.mark 7 .done))
    "GET" "/a" (.mark 7 .done) [] (by decide) (by decide)

/-- C4: on equal segment counts the matcher walks segments pairwise — the
walk succeeds exactly when every pattern segment either carries the `:`
marker or equals the request segment byte-for-byte, and on success the
parameter mapping is the pairwise fold binding each marked segment's
remaining text to the request segment value; concretely `/users/:id` matches
`/users/42` binding `id = "42"`, does not match `/users/42/extra`
(segment-count mismatch), and does not match `/orders/42` (literal
mismatch). -/
theorem c4_segment_walk (pats segs : List String) (params : List (String × String))
    (hlen : pats.length = segs.length) :
    ((matchSegs pats segs params).isSome = true ↔
      ∀ pr ∈ pats.zip segs, hasColonMarker pr.1 = true ∨ pr.1 = pr.2) ∧
    (∀ ps, matchSegs pats segs params = some ps →
      ps = bindParams params (pats.zip segs)) ∧
    usersRouter.matchRoute "GET" "/users/42" = some (.mark 1 .done, [("id", "42")]) ∧
    paramsGet [("id", "42")] "id" = some "42" ∧
    usersRouter.matchRoute "GET" "/users/42/extra" = none ∧
    usersRouter.matchRoute "GET" "/orders/42" = none := by
  exact ⟨matchSegs_isSome pats segs params hlen,
    fun ps => matchSegs_binds pats segs params ps,
    by decide, by decide, by decide, by decide⟩

theorem c4_segment_walk_witness :
    (matchSegs ["users", ":id"] ["users", "42"] []).isSome = true := by
  exact (c4_segment_walk ["users", ":id"] ["users", "42"] [] (by decide)).1.mpr (by decide)

/-- C5: for a matched request with middleware M1, M2 each emitting a before
marker, invoking their continuation, then emitting an after marker, and a
terminal handler H emitting its marker, the observable event sequence is
exactly [enter M1, M1-before, enter M2, M2-before, enter H, H, M2-after,
M1-after]: downstream in registration order, upstream in exact reverse
order, as nested scopes. -/
theorem c5_nested_order (a : App) (method path : String) (b1 a1 b2 a2 mh : Nat)
    (params : List (String × String))
    (hmid : a.middleware = [Prog.mark b1 (.next (.mark a1 .done)),
                            Prog.mark b2 (.next (.mark a2 .done))])
    (hmatch : a.router.matchRoute method path = some (Prog.mark mh Prog.done, params)) :
    (a.ServeHTTP false method path).trace =
      [.enter 0, .mark b1, .enter 1, .mark b2, .enter 2, .mark mh,
       .mark a2, .mark a1] := by
  simp [App.ServeHTTP, hmatch, hmid, exec, runUnit, pushEvent, freshContext]

theorem c5_nested_order_witness :
    ((((New.Use (.mark 10 (.next (.mark 11 .done)))).Use
        (.mark 20 (.next (.mark 21 .done)))).GET "/x" (.mark 30 .done)).ServeHTTP
      false "GET" "/x").trace =
      [.enter 0, .mark 10, .enter 1, .mark 20, .enter 2, .mark 30,
       .mark 21, .mark 11] := by
  exact c5_nested_order (((New.Use (.mark 10 (.next (.mark 11 .done)))).Use
      (.mark 20 (.next (.mark 21 .done)))).GET "/x" (.mark 30 .done))
    "GET" "/x" 10 11 20 21 30 [] (by decide) (by decide)

/-- C6: the matcher returns the handler and parameters of the first fully
matching route in registration order under the requested method — whenever
the routes registered under a method split as `rts1 ++ rt :: rts2` with no
route of `rts1` matching the path and `rt` matching it, `rt` wins; concretely
with `/a/:x` registered before `/a/b`, requesting `/a/b` yields the
first-registered parameter route with `x = "b"`, not the more specific
literal route. -/
theorem c6_first_match (r : Router) (method path : String)
    (rts1 rts2 : List route) (rt : route) (ps : List (String × String))
    (hr : methodRoutes r.routes method = rts1 ++ rt :: rts2)
    (h1 : ∀ r' ∈ rts1, routeMatch r' path = none)
    (h2 : routeMatch rt path = some ps) :
    r.matchRoute method path = some (rt.handler, ps) ∧
    precedenceRouter.matchRoute "GET" "/a/b" = some (.mark 1 .done, [("x", "b")]) := by
  constructor
  · unfold Router.matchRoute
    rw [hr]
    exact matchList_first rts1 rt rts2 path ps h1 h2
  · decide

theorem c6_first_match_witness :
    precedenceRouter.matchRoute "GET" "/a/b" = some (.mark 1 .done, [("x", "b")]) := by
  exact (c6_first_match precedenceRouter "GET" "/a/b" []
    [⟨"/a/b", .mark 2 .done⟩] ⟨"/a/:x", .mark 1 .done⟩ [("x", "b")]
    (by decide) (by decide) (by decide)).1

/-- C7 counterexample: the matcher does treat a path with a trailing
separator as equivalent — `/users/42/` is matched to the pattern
`/users/:id` (with the same binding as `/users/42`), contradicting the claim
that such a path is not matched. -/
theorem c7_counterexample :
    usersRouter.matchRoute "GET" "/users/42" = some (.mark 1 .done, [("id", "42")]) ∧
    usersRouter.matchRoute "GET" "/users/42/" = some (.mark 1 .done, [("id", "42")]) ∧
    usersRouter.matchRoute "GET" "/users/42/" ≠ none := by
  decide

/-- C7 amended: path normalization strips trailing separators, so the
matcher treats a request path with a trailing separator exactly like the
same path without it — for every route table, method, and path, appending a
trailing separator leaves the match result unchanged. -/
theorem c7_trailing_slash_equiv (r : Router) (method path : String) :
    r.matchRoute method (path ++ "/") = r.matchRoute method path := by
  unfold Router.matchRoute
  exact matchList_splitPath_congr _ _ (splitPath_append_slash path) _

end Vayu
